import Mathlib

/-!
Shallow embedding of the Game-of-Life terminal application (src/main.rs)
and verification of its specification claims.

Modelling conventions:
* `GameTable = Vec<Vec<bool>>` becomes `List (List Bool)`.
* Rust `usize` indices become `Nat`; the `as u16` cast applied to the row
  and column indices before neighbour counting becomes an explicit
  `% 65536`.  The `u16` field `update_per_second_max` is a `Nat` with
  wrap-around arithmetic `% 65536` (release-build overflow semantics).
* Rust's `i32` arithmetic in `count_number_of_neighbour` becomes `Int`
  arithmetic; this is exact as long as the stored grid size fits in the
  range where no `i32` overflow occurs, which holds because the size is
  taken from the terminal's `u16` height/width.
* The `%` operator of Rust panics when the divisor is zero, so
  `count_number_of_neighbour` (whose divisors are the stored grid
  dimensions) returns `Option Nat`: `none` models the panic, and the
  panic propagates through `update_game_table`, which therefore returns
  `Option GameTable`.
* Out-of-range `Vec` indexing would also panic in Rust; reads are
  modelled with defaulted access (`getD`) and writes with `List.set`
  (a no-op out of range).  All claims are settled under dimension
  hypotheses that keep every access in range, where the two semantics
  agree.
* Wall-clock time and rendering are not embedded; the timing decision of
  the run loop is abstracted into a boolean input `due` and the
  simulation-advance phase of one loop iteration is modelled as a pure
  state transformer.
-/

namespace GameOfLife

/-- The cell matrix: `type GameTable = Vec<Vec<bool>>`. -/
abbrev GameTable := List (List Bool)

/-- Read a cell, defaulting to `false` out of range (in-range reads agree
with Rust's `game_table[x][y]`). -/
def get2 (gt : GameTable) (x y : Nat) : Bool :=
  (gt.getD x []).getD y false

/-- Write a cell (in-range writes agree with Rust's
`game_table[x][y] = v`; out of range it is a no-op). -/
def set2 (gt : GameTable) (x y : Nat) (v : Bool) : GameTable :=
  gt.set x ((gt.getD x []).set y v)

/-- Embedding of `initialize_empty_game_table`: `size.0` rows of `size.1`
cells, all `false`. -/
def initialize_empty_game_table (size : Nat × Nat) : GameTable :=
  List.replicate size.1 (List.replicate size.2 false)

/-- The `(iy, ix)` pairs visited by the two nested `for` loops of
`count_number_of_neighbour`, in source order (`iy` outer, `ix` inner,
skipping `(0, 0)`). -/
def neighbour_offsets : List (Int × Int) :=
  [(-1, -1), (-1, 0), (-1, 1), (0, -1), (0, 1), (1, -1), (1, 0), (1, 1)]

/-- The value computed by the loop body of `count_number_of_neighbour`
when both stored dimensions are nonzero.  Note the source pairing:
`real_x` (row) is built from the inner variable `ix` (here `p.2`) and
`real_y` (column) from the outer variable `iy` (here `p.1`). -/
def count_val (size : Nat × Nat) (gt : GameTable) (x y : Nat) : Nat :=
  neighbour_offsets.countP fun p =>
    get2 gt (((x : Int) + p.2 + (size.1 : Int)) % (size.1 : Int)).toNat
            (((y : Int) + p.1 + (size.2 : Int)) % (size.2 : Int)).toNat

/-- Embedding of `App::count_number_of_neighbour`.  `none` models the
Rust panic `attempt to calculate the remainder with a divisor of zero`,
which fires on the first loop iteration whenever a stored dimension is
zero. -/
def count_number_of_neighbour (size : Nat × Nat) (gt : GameTable) (x y : Nat) : Option Nat :=
  if size.1 = 0 ∨ size.2 = 0 then none
  else some (count_val size gt x y)

/-- The `match (neighbour, *cell)` of `update_game_table`: the two live
arms set the fresh cell to `true`, the wildcard arm leaves it at its
current value. -/
def new_cell_state (neighbour : Nat) (cell current : Bool) : Bool :=
  match neighbour, cell with
  | 2, true => true
  | 3, true => true
  | 3, false => true
  | _, _ => current

/-- Embedding of `App::update_game_table`: start from an empty table of
the stored size, then for every `(x, row)` and `(y, cell)` of the input
table (via `enumerate`) write the rule's result at `(x, y)`.  The row
and column indices are cast `as u16` before the neighbour count, hence
the `% 65536`.  A `none` neighbour count (modulo-by-zero panic) makes
the whole update `none`. -/
def update_game_table (size : Nat × Nat) (gt : GameTable) : Option GameTable :=
  gt.enum.foldlM
    (fun new p =>
      p.2.enum.foldlM
        (fun new2 q =>
          (count_number_of_neighbour size gt (p.1 % 65536) (q.1 % 65536)).map
            fun n => set2 new2 p.1 q.1 (new_cell_state n q.2 (get2 new2 p.1 q.1)))
        new)
    (initialize_empty_game_table size)

/-- The fields of `struct App` that the verified operations touch.
The timing fields (`time_to_update`, `time_to_draw`, `fps`,
`update_par_second_real`) carry wall-clock telemetry only and are not
embedded. -/
structure App where
  exit : Bool
  game_table : GameTable
  game_table_size : Nat × Nat
  update_per_second_max : Nat
  game_pause : Bool
  game_table_user_cursor : Nat × Nat
  step_by_step_next : Bool
deriving DecidableEq

/-- Embedding of `App::DEFAULT_MAX_UPDATE_PER_SECOND`. -/
def DEFAULT_MAX_UPDATE_PER_SECOND : Nat := 10

/-- Embedding of `App::toggle_game_pause`. -/
def toggle_game_pause (a : App) : App :=
  { a with game_pause := !a.game_pause }

/-- Embedding of `App::game_table_user_cursor_move_left` (field `.1` of
the Rust tuple is the column, `.2` here). -/
def game_table_user_cursor_move_left (a : App) : App :=
  if a.game_table_user_cursor.2 > 0 then
    { a with game_table_user_cursor := (a.game_table_user_cursor.1, a.game_table_user_cursor.2 - 1) }
  else
    { a with game_table_user_cursor := (a.game_table_user_cursor.1, a.game_table_size.2 - 1) }

/-- Embedding of `App::game_table_user_cursor_move_right`. -/
def game_table_user_cursor_move_right (a : App) : App :=
  if a.game_table_user_cursor.2 < a.game_table_size.2 - 1 then
    { a with game_table_user_cursor := (a.game_table_user_cursor.1, a.game_table_user_cursor.2 + 1) }
  else
    { a with game_table_user_cursor := (a.game_table_user_cursor.1, 0) }

/-- Embedding of `App::game_table_user_cursor_move_up`. -/
def game_table_user_cursor_move_up (a : App) : App :=
  if a.game_table_user_cursor.1 > 0 then
    { a with game_table_user_cursor := (a.game_table_user_cursor.1 - 1, a.game_table_user_cursor.2) }
  else
    { a with game_table_user_cursor := (a.game_table_size.1 - 1, a.game_table_user_cursor.2) }

/-- Embedding of `App::game_table_user_cursor_move_down`. -/
def game_table_user_cursor_move_down (a : App) : App :=
  if a.game_table_user_cursor.1 < a.game_table_size.1 - 1 then
    { a with game_table_user_cursor := (a.game_table_user_cursor.1 + 1, a.game_table_user_cursor.2) }
  else
    { a with game_table_user_cursor := (0, a.game_table_user_cursor.2) }

/-- Embedding of `App::switch_cell_state`: only while paused, flip the
cell under the cursor. -/
def switch_cell_state (a : App) : App :=
  if a.game_pause then
    let x := a.game_table_user_cursor.1
    let y := a.game_table_user_cursor.2
    { a with game_table := set2 a.game_table x y (!(get2 a.game_table x y)) }
  else a

/-- Embedding of `App::increase_update_per_second_max`: unchecked `u16`
addition, wrap-around semantics. -/
def increase_update_per_second_max (a : App) (update_per_second : Nat) : App :=
  { a with update_per_second_max := (a.update_per_second_max + update_per_second) % 65536 }

/-- Embedding of `App::decrease_update_per_second_max`: the guard and the
subtraction both compute `update_per_second_max - update_per_second` in
`u16`, modelled as wrap-around `(x + 65536 - n) % 65536` (exact for the
in-range values the app maintains). -/
def decrease_update_per_second_max (a : App) (update_per_second : Nat) : App :=
  if (a.update_per_second_max + 65536 - update_per_second) % 65536 > 0 then
    { a with update_per_second_max := (a.update_per_second_max + 65536 - update_per_second) % 65536 }
  else a

/-- Embedding of `App::toggle_step_by_step`: request a step and force
pause if running. -/
def toggle_step_by_step (a : App) : App :=
  let a1 := { a with step_by_step_next := true }
  if !a1.game_pause then { a1 with game_pause := true } else a1

/-- Embedding of `App::reset_update_per_second_max`. -/
def reset_update_per_second_max (a : App) : App :=
  { a with update_per_second_max := DEFAULT_MAX_UPDATE_PER_SECOND }

/-- Embedding of `App::reset_game_table`. -/
def reset_game_table (a : App) : App :=
  { a with game_table := initialize_empty_game_table a.game_table_size }

/-- The simulation-advance phase of one iteration of `App::run`
(lines 50-62): while running, advance one generation if the rate gate
`due` has elapsed; while paused, advance one generation and clear the
flag if a single step is pending.  The wall-clock comparison is
abstracted into the boolean `due`; `none` propagates an update panic. -/
def run_sim_phase (a : App) (due : Bool) : Option App :=
  if !a.game_pause then
    if due then
      (update_game_table a.game_table_size a.game_table).map
        fun gt2 => { a with game_table := gt2 }
    else some a
  else if a.step_by_step_next then
    (update_game_table a.game_table_size a.game_table).map
      fun gt2 => { a with game_table := gt2, step_by_step_next := false }
  else some a

/-- Modelled from the spec's words, as the refinement target for the
neighbour-count claim: count the live cells among "the 8 cells at
offsets `(-1,-1)…(1,1)` excluding `(0,0)`, with each offset coordinate
wrapped independently modulo the grid's height (for row offsets) or
width (for column offsets)".  Offsets are listed here in row-major
`(row offset, column offset)` order. -/
def count_spec (size : Nat × Nat) (gt : GameTable) (x y : Nat) : Nat :=
  List.countP
    (fun d => get2 gt (((x : Int) + d.1) % (size.1 : Int)).toNat
                      (((y : Int) + d.2) % (size.2 : Int)).toNat)
    [(-1, -1), (-1, 0), (-1, 1), (0, -1), (0, 1), (1, -1), (1, 0), (1, 1)]

/-- Proof bridge: the inner (per-row) loop of `update_game_table` as a
pure fold, used once every neighbour count is known to succeed. -/
def row_update (size : Nat × Nat) (gt : GameTable) (x : Nat) (acc : GameTable)
    (l : List (Nat × Bool)) : GameTable :=
  l.foldl
    (fun new2 q =>
      set2 new2 x q.1 (new_cell_state (count_val size gt (x % 65536) (q.1 % 65536)) q.2 (get2 new2 x q.1)))
    acc

/-- Proof bridge: `update_game_table` as a pure fold (its value whenever
no neighbour count panics). -/
def update_pure (size : Nat × Nat) (gt : GameTable) : GameTable :=
  gt.enum.foldl (fun new p => row_update size gt p.1 new p.2.enum)
    (initialize_empty_game_table size)

/-- Dimension invariant of the application: the table has exactly
`size.0` rows of exactly `size.1` cells. -/
def Shaped (size : Nat × Nat) (gt : GameTable) : Prop :=
  gt.length = size.1 ∧ ∀ i, i < size.1 → (gt.getD i []).length = size.2

/-! ## Basic lemmas about cell access -/

theorem getD_set_self {α : Type} (l : List α) (i : Nat) (v d : α) (h : i < l.length) :
    (l.set i v).getD i d = v := by
  rw [List.getD_eq_getElem?_getD, List.getElem?_set_self h, Option.getD_some]

theorem getD_set_ne {α : Type} (l : List α) {i j : Nat} (v d : α) (h : i ≠ j) :
    (l.set i v).getD j d = l.getD j d := by
  rw [List.getD_eq_getElem?_getD, List.getElem?_set_ne h, ← List.getD_eq_getElem?_getD]

theorem getD_replicate {α : Type} (n i : Nat) (a d : α) :
    (List.replicate n a).getD i d = if i < n then a else d := by
  rw [List.getD_eq_getElem?_getD, List.getElem?_replicate]
  split
  · rw [Option.getD_some]
  · rw [Option.getD_none]

theorem get2_set2_self (gt : GameTable) (x y : Nat) (v : Bool)
    (hx : x < gt.length) (hy : y < (gt.getD x []).length) :
    get2 (set2 gt x y v) x y = v := by
  unfold get2 set2
  rw [getD_set_self _ _ _ _ hx, getD_set_self _ _ _ _ hy]

theorem get2_set2_ne (gt : GameTable) {x y r c : Nat} (v : Bool)
    (h : x ≠ r ∨ y ≠ c) :
    get2 (set2 gt x y v) r c = get2 gt r c := by
  rcases eq_or_ne x r with rfl | hxr
  · replace h : y ≠ c := h.resolve_left (by simp)
    by_cases hx : x < gt.length
    · unfold get2 set2
      rw [getD_set_self _ _ _ _ hx, getD_set_ne _ _ _ h]
    · unfold set2
      rw [List.set_eq_of_length_le (Nat.le_of_not_lt hx)]
  · unfold get2 set2
    rw [getD_set_ne _ _ _ hxr]

theorem length_set2 (gt : GameTable) (x y : Nat) (v : Bool) :
    (set2 gt x y v).length = gt.length :=
  List.length_set ..

theorem getD_length_set2 (gt : GameTable) (x y i : Nat) (v : Bool) :
    ((set2 gt x y v).getD i []).length = (gt.getD i []).length := by
  rcases eq_or_ne x i with rfl | hxi
  · by_cases hx : x < gt.length
    · unfold set2
      rw [getD_set_self _ _ _ _ hx, List.length_set]
    · unfold set2
      rw [List.set_eq_of_length_le (Nat.le_of_not_lt hx)]
  · unfold set2
    rw [getD_set_ne _ _ _ hxi]

theorem shaped_set2 (size : Nat × Nat) (gt : GameTable) (x y : Nat) (v : Bool)
    (h : Shaped size gt) : Shaped size (set2 gt x y v) := by
  refine ⟨(length_set2 ..).trans h.1, fun i hi => ?_⟩
  rw [getD_length_set2]
  exact h.2 i hi

theorem shaped_initialize_empty (size : Nat × Nat) :
    Shaped size (initialize_empty_game_table size) := by
  refine ⟨List.length_replicate .., fun i hi => ?_⟩
  rw [initialize_empty_game_table, getD_replicate, if_pos hi, List.length_replicate]

theorem get2_initialize_empty (size : Nat × Nat) (r c : Nat) :
    get2 (initialize_empty_game_table size) r c = false := by
  unfold get2 initialize_empty_game_table
  rw [getD_replicate]
  split
  · rw [getD_replicate]
    split
    · rfl
    · rfl
  · rw [List.getD_nil]

theorem add_emod_shift (a b : Int) : (a + b) % b = a % b := by
  simp [Int.add_emod]

/-! ## Claim C2: toroidal neighbour counting -/

/-- C2: for every grid with positive stored height and width and every
in-range cell, `count_number_of_neighbour` returns exactly the number of
live cells among the 8 neighbours at offsets `(-1,-1)…(1,1)` minus
`(0,0)`, row coordinate wrapped modulo the height and column coordinate
wrapped modulo the width (`count_spec`); in particular on the 3×3 grid
that is all dead except cell `(0,0)`, the count at `(2,2)` is 1. -/
theorem C2_neighbour_count :
    (∀ (size : Nat × Nat) (gt : GameTable) (x y : Nat),
      size.1 ≠ 0 → size.2 ≠ 0 → x < size.1 → y < size.2 →
      count_number_of_neighbour size gt x y = some (count_spec size gt x y)) ∧
    count_number_of_neighbour (3, 3)
      [[true, false, false], [false, false, false], [false, false, false]] 2 2 = some 1 := by
  constructor
  · intro size gt x y h1 h2 _ _
    have key : count_val size gt x y = count_spec size gt x y := by
      simp only [count_val, count_spec, neighbour_offsets, List.countP_cons, List.countP_nil,
        add_emod_shift, Int.add_zero]
      omega
    rw [count_number_of_neighbour, if_neg (by simp [h1, h2]), key]
  · decide

/-- Witness for C2 at the 3×3 grid of its own example. -/
theorem C2_neighbour_count_witness :
    (3 : Nat) ≠ 0 ∧ (2 : Nat) < 3 ∧
    count_number_of_neighbour (3, 3)
        [[true, false, false], [false, false, false], [false, false, false]] 2 2 =
      some (count_spec (3, 3)
        [[true, false, false], [false, false, false], [false, false, false]] 2 2) :=
  ⟨by decide, by decide,
    C2_neighbour_count.1 (3, 3)
      [[true, false, false], [false, false, false], [false, false, false]] 2 2
      (by decide) (by decide) (by decide) (by decide)⟩

/-! ## Claim C5: single step while paused -/

/-- C5: while paused with a pending single-step request, one iteration
of the simulation phase advances the table by exactly one generation,
clears the pending-step flag and stays paused; a further iteration
without a new request changes nothing. -/
theorem C5_single_step (a : App) (gt' : GameTable) (due due2 : Bool)
    (hp : a.game_pause = true) (hs : a.step_by_step_next = true)
    (hu : update_game_table a.game_table_size a.game_table = some gt') :
    run_sim_phase a due = some { a with game_table := gt', step_by_step_next := false } ∧
    ({ a with game_table := gt', step_by_step_next := false } : App).game_table = gt' ∧
    ({ a with game_table := gt', step_by_step_next := false } : App).game_pause = true ∧
    run_sim_phase { a with game_table := gt', step_by_step_next := false } due2 =
      some { a with game_table := gt', step_by_step_next := false } := by
  refine ⟨?_, rfl, hp, ?_⟩
  · simp [run_sim_phase, hp, hs, hu]
  · simp [run_sim_phase, hp]

/-- Witness for C5 on a 1×1 grid. -/
theorem C5_single_step_witness :
    run_sim_phase (App.mk false [[true]] (1, 1) 10 true (0, 0) true) true =
      some { App.mk false [[true]] (1, 1) 10 true (0, 0) true with
              game_table := [[false]], step_by_step_next := false } ∧
    ({ App.mk false [[true]] (1, 1) 10 true (0, 0) true with
        game_table := [[false]], step_by_step_next := false } : App).game_table = [[false]] ∧
    ({ App.mk false [[true]] (1, 1) 10 true (0, 0) true with
        game_table := [[false]], step_by_step_next := false } : App).game_pause = true ∧
    run_sim_phase { App.mk false [[true]] (1, 1) 10 true (0, 0) true with
        game_table := [[false]], step_by_step_next := false } false =
      some { App.mk false [[true]] (1, 1) 10 true (0, 0) true with
              game_table := [[false]], step_by_step_next := false } :=
  C5_single_step (App.mk false [[true]] (1, 1) 10 true (0, 0) true) [[false]] true false
    rfl rfl (by decide)

/-! ## Claim C6: pause-gated cell toggling -/

/-- C6: `switch_cell_state` while running leaves the state (hence every
cell) unchanged; while paused, with the cursor in range, it flips
exactly the cell under the cursor and no other. -/
theorem C6_switch_cell :
    (∀ a : App, a.game_pause = false → switch_cell_state a = a) ∧
    (∀ (a : App) (r c : Nat), a.game_pause = true →
      a.game_table_user_cursor.1 < a.game_table.length →
      a.game_table_user_cursor.2 < (a.game_table.getD a.game_table_user_cursor.1 []).length →
      get2 (switch_cell_state a).game_table r c =
        if r = a.game_table_user_cursor.1 ∧ c = a.game_table_user_cursor.2 then
          !(get2 a.game_table r c)
        else get2 a.game_table r c) := by
  constructor
  · intro a h
    simp [switch_cell_state, h]
  · intro a r c hp h1 h2
    simp only [switch_cell_state, hp, if_true]
    by_cases hrc : r = a.game_table_user_cursor.1 ∧ c = a.game_table_user_cursor.2
    · obtain ⟨rfl, rfl⟩ := hrc
      rw [if_pos ⟨rfl, rfl⟩]
      exact get2_set2_self _ _ _ _ h1 h2
    · rw [if_neg hrc]
      apply get2_set2_ne
      rcases not_and_or.mp hrc with h | h
      · exact Or.inl (Ne.symm h)
      · exact Or.inr (Ne.symm h)

/-- Witness for C6: a running state is untouched; a paused 1×2 state has
exactly the cursor cell flipped. -/
theorem C6_switch_cell_witness :
    switch_cell_state (App.mk false [[true, false]] (1, 2) 10 false (0, 1) false) =
      App.mk false [[true, false]] (1, 2) 10 false (0, 1) false ∧
    get2 (switch_cell_state (App.mk false [[true, false]] (1, 2) 10 true (0, 1) false)).game_table 0 0 =
      (if 0 = (App.mk false [[true, false]] (1, 2) 10 true (0, 1) false).game_table_user_cursor.1 ∧
          0 = (App.mk false [[true, false]] (1, 2) 10 true (0, 1) false).game_table_user_cursor.2 then
        !(get2 [[true, false]] 0 0)
      else get2 [[true, false]] 0 0) ∧
    get2 (switch_cell_state (App.mk false [[true, false]] (1, 2) 10 true (0, 1) false)).game_table 0 1 =
      (if 0 = (App.mk false [[true, false]] (1, 2) 10 true (0, 1) false).game_table_user_cursor.1 ∧
          1 = (App.mk false [[true, false]] (1, 2) 10 true (0, 1) false).game_table_user_cursor.2 then
        !(get2 [[true, false]] 0 1)
      else get2 [[true, false]] 0 1) :=
  ⟨C6_switch_cell.1 _ rfl,
    C6_switch_cell.2 (App.mk false [[true, false]] (1, 2) 10 true (0, 1) false) 0 0
      rfl (by decide) (by decide),
    C6_switch_cell.2 (App.mk false [[true, false]] (1, 2) 10 true (0, 1) false) 0 1
      rfl (by decide) (by decide)⟩

/-! ## Claim C7: the rate floor invariant (corrected: the unclamped u16
increment can wrap past the invariant) -/

/-- C7 counterexample: at `update_per_second_max = 65535` (which
satisfies the invariant `rate ≥ 1`), the rate-increase command wraps the
`u16` to 0, so "incrementing also keeps the rate at least 1" fails as a
statement about every clock state. -/
theorem C7_rate_invariant_cex :
    1 ≤ (App.mk false [] (0, 0) 65535 false (0, 0) false).update_per_second_max ∧
    ¬ 1 ≤ (increase_update_per_second_max
        (App.mk false [] (0, 0) 65535 false (0, 0) false) 1).update_per_second_max := by
  decide

/-- C7 (amended): the invariant `update_per_second_max ≥ 1` is preserved
by decrement (decrementing at 1 is a no-op that leaves the rate at 1)
and by reset, and by increment whenever the rate is at most 65534; at
65535 the unclamped `u16` increment wraps to 0. -/
theorem C7_rate_invariant :
    (∀ a : App, a.update_per_second_max = 1 → decrease_update_per_second_max a 1 = a) ∧
    (∀ a : App, 1 ≤ a.update_per_second_max → a.update_per_second_max ≤ 65535 →
      1 ≤ (decrease_update_per_second_max a 1).update_per_second_max) ∧
    (∀ a : App, 1 ≤ (reset_update_per_second_max a).update_per_second_max) ∧
    (∀ a : App, 1 ≤ a.update_per_second_max → a.update_per_second_max ≤ 65534 →
      1 ≤ (increase_update_per_second_max a 1).update_per_second_max) := by
  refine ⟨fun a h => ?_, fun a h1 h2 => ?_, fun a => ?_, fun a h1 h2 => ?_⟩
  · simp [decrease_update_per_second_max, h]
  · rw [decrease_update_per_second_max]
    split
    · simp only
      omega
    · exact h1
  · simp [reset_update_per_second_max, DEFAULT_MAX_UPDATE_PER_SECOND]
  · simp only [increase_update_per_second_max]
    omega

/-- Witness for C7 at concrete rates 1, 5 and 5. -/
theorem C7_rate_invariant_witness :
    decrease_update_per_second_max (App.mk false [] (0, 0) 1 false (0, 0) false) 1 =
      App.mk false [] (0, 0) 1 false (0, 0) false ∧
    1 ≤ (decrease_update_per_second_max (App.mk false [] (0, 0) 5 false (0, 0) false) 1).update_per_second_max ∧
    1 ≤ (reset_update_per_second_max (App.mk false [] (0, 0) 5 false (0, 0) false)).update_per_second_max ∧
    1 ≤ (increase_update_per_second_max (App.mk false [] (0, 0) 5 false (0, 0) false) 1).update_per_second_max :=
  ⟨C7_rate_invariant.1 _ rfl,
    C7_rate_invariant.2.1 _ (by decide) (by decide),
    C7_rate_invariant.2.2.1 _,
    C7_rate_invariant.2.2.2 _ (by decide) (by decide)⟩

/-! ## Claim C8: rate increase adds exactly 1 (corrected: u16 wrap at
65535) -/

/-- C8 counterexample: at rate 65535 the increase command does not add 1
over the integers; the `u16` addition wraps to 0. -/
theorem C8_rate_increase_cex :
    (increase_update_per_second_max
        (App.mk false [] (0, 0) 65535 true (0, 0) false) 1).update_per_second_max ≠
      (App.mk false [] (0, 0) 65535 true (0, 0) false).update_per_second_max + 1 := by
  decide

/-- C8 (amended): for every clock state with rate below 65535 the
rate-increase command increments `update_per_second_max` by exactly 1
(there is no upper clamp short of the `u16` range); at exactly 65535 the
addition wraps to 0. -/
theorem C8_rate_increase :
    (∀ a : App, a.update_per_second_max < 65535 →
      (increase_update_per_second_max a 1).update_per_second_max = a.update_per_second_max + 1) ∧
    (∀ a : App, a.update_per_second_max = 65535 →
      (increase_update_per_second_max a 1).update_per_second_max = 0) := by
  constructor
  · intro a h
    simp only [increase_update_per_second_max]
    omega
  · intro a h
    simp [increase_update_per_second_max, h]

/-- Witness for C8 at rates 10 and 65535. -/
theorem C8_rate_increase_witness :
    (increase_update_per_second_max (App.mk false [] (0, 0) 10 true (0, 0) false) 1).update_per_second_max =
      (App.mk false [] (0, 0) 10 true (0, 0) false).update_per_second_max + 1 ∧
    (increase_update_per_second_max (App.mk false [] (0, 0) 65535 false (0, 0) true) 1).update_per_second_max = 0 :=
  ⟨C8_rate_increase.1 _ (by decide), C8_rate_increase.2 _ rfl⟩

/-! ## Claim C9: toroidal cursor movement -/

/-- C9: with positive stored dimensions and an in-bounds cursor, every
directional move keeps the cursor in bounds; moving left from column 0
lands on `width-1`, right from `width-1` on 0, up from row 0 on
`height-1`, down from `height-1` on 0, and every other move changes the
corresponding coordinate by exactly 1. -/
theorem C9_cursor_moves (a : App) (h w r c : Nat)
    (hsz : a.game_table_size = (h, w)) (hcur : a.game_table_user_cursor = (r, c))
    (hh : 0 < h) (hw : 0 < w) (hr : r < h) (hc : c < w) :
    ((game_table_user_cursor_move_left a).game_table_user_cursor =
        (r, if c = 0 then w - 1 else c - 1) ∧
      (game_table_user_cursor_move_left a).game_table_user_cursor.1 < h ∧
      (game_table_user_cursor_move_left a).game_table_user_cursor.2 < w) ∧
    ((game_table_user_cursor_move_right a).game_table_user_cursor =
        (r, if c = w - 1 then 0 else c + 1) ∧
      (game_table_user_cursor_move_right a).game_table_user_cursor.1 < h ∧
      (game_table_user_cursor_move_right a).game_table_user_cursor.2 < w) ∧
    ((game_table_user_cursor_move_up a).game_table_user_cursor =
        (if r = 0 then h - 1 else r - 1, c) ∧
      (game_table_user_cursor_move_up a).game_table_user_cursor.1 < h ∧
      (game_table_user_cursor_move_up a).game_table_user_cursor.2 < w) ∧
    ((game_table_user_cursor_move_down a).game_table_user_cursor =
        (if r = h - 1 then 0 else r + 1, c) ∧
      (game_table_user_cursor_move_down a).game_table_user_cursor.1 < h ∧
      (game_table_user_cursor_move_down a).game_table_user_cursor.2 < w) := by
  have hL : (game_table_user_cursor_move_left a).game_table_user_cursor =
      (r, if c = 0 then w - 1 else c - 1) := by
    simp only [game_table_user_cursor_move_left, hcur, hsz]
    rcases Nat.eq_zero_or_pos c with h0 | h0
    · subst h0
      simp
    · rw [if_pos (by simpa using h0), if_neg (by omega)]
  have hR : (game_table_user_cursor_move_right a).game_table_user_cursor =
      (r, if c = w - 1 then 0 else c + 1) := by
    simp only [game_table_user_cursor_move_right, hcur, hsz]
    rcases eq_or_ne c (w - 1) with h0 | h0
    · rw [if_neg (by omega), if_pos h0]
    · rw [if_pos (by omega), if_neg h0]
  have hU : (game_table_user_cursor_move_up a).game_table_user_cursor =
      (if r = 0 then h - 1 else r - 1, c) := by
    simp only [game_table_user_cursor_move_up, hcur, hsz]
    rcases Nat.eq_zero_or_pos r with h0 | h0
    · subst h0
      simp
    · rw [if_pos (by simpa using h0), if_neg (by omega)]
  have hD : (game_table_user_cursor_move_down a).game_table_user_cursor =
      (if r = h - 1 then 0 else r + 1, c) := by
    simp only [game_table_user_cursor_move_down, hcur, hsz]
    rcases eq_or_ne r (h - 1) with h0 | h0
    · rw [if_neg (by omega), if_pos h0]
    · rw [if_pos (by omega), if_neg h0]
  refine ⟨⟨hL, ?_, ?_⟩, ⟨hR, ?_, ?_⟩, ⟨hU, ?_, ?_⟩, ⟨hD, ?_, ?_⟩⟩ <;>
    simp only [hL, hR, hU, hD] <;>
    first
      | omega
      | (split <;> omega)

/-- Witness for C9 on a 2×3 grid with the cursor at `(1, 0)`. -/
theorem C9_cursor_moves_witness :
    ((game_table_user_cursor_move_left (App.mk false [] (2, 3) 10 true (1, 0) false)).game_table_user_cursor =
        (1, if (0 : Nat) = 0 then 3 - 1 else 0 - 1) ∧
      (game_table_user_cursor_move_left (App.mk false [] (2, 3) 10 true (1, 0) false)).game_table_user_cursor.1 < 2 ∧
      (game_table_user_cursor_move_left (App.mk false [] (2, 3) 10 true (1, 0) false)).game_table_user_cursor.2 < 3) ∧
    ((game_table_user_cursor_move_right (App.mk false [] (2, 3) 10 true (1, 0) false)).game_table_user_cursor =
        (1, if (0 : Nat) = 3 - 1 then 0 else 0 + 1) ∧
      (game_table_user_cursor_move_right (App.mk false [] (2, 3) 10 true (1, 0) false)).game_table_user_cursor.1 < 2 ∧
      (game_table_user_cursor_move_right (App.mk false [] (2, 3) 10 true (1, 0) false)).game_table_user_cursor.2 < 3) ∧
    ((game_table_user_cursor_move_up (App.mk false [] (2, 3) 10 true (1, 0) false)).game_table_user_cursor =
        (if (1 : Nat) = 0 then 2 - 1 else 1 - 1, 0) ∧
      (game_table_user_cursor_move_up (App.mk false [] (2, 3) 10 true (1, 0) false)).game_table_user_cursor.1 < 2 ∧
      (game_table_user_cursor_move_up (App.mk false [] (2, 3) 10 true (1, 0) false)).game_table_user_cursor.2 < 3) ∧
    ((game_table_user_cursor_move_down (App.mk false [] (2, 3) 10 true (1, 0) false)).game_table_user_cursor =
        (if (1 : Nat) = 2 - 1 then 0 else 1 + 1, 0) ∧
      (game_table_user_cursor_move_down (App.mk false [] (2, 3) 10 true (1, 0) false)).game_table_user_cursor.1 < 2 ∧
      (game_table_user_cursor_move_down (App.mk false [] (2, 3) 10 true (1, 0) false)).game_table_user_cursor.2 < 3) :=
  C9_cursor_moves (App.mk false [] (2, 3) 10 true (1, 0) false) 2 3 1 0 rfl rfl
    (by decide) (by decide) (by decide) (by decide)

/-! ## Claim C10: the step command forces pause -/

/-- C10: `toggle_step_by_step` always sets the pending-step flag and
always leaves the application paused (it pauses a running simulation and
keeps a paused one paused), so it never leaves a step request pending in
running mode. -/
theorem C10_step_request_forces_pause (a : App) :
    (toggle_step_by_step a).step_by_step_next = true ∧
    (toggle_step_by_step a).game_pause = true := by
  unfold toggle_step_by_step
  cases h : a.game_pause <;> simp [h]

/-! ## Characterisation of `update_game_table` via `update_pure` -/

theorem foldlM_option_eq_foldl {σ α : Type} (g : σ → α → σ) (l : List α) (init : σ) :
    (List.foldlM (fun s a => some (g s a)) init l : Option σ) = some (List.foldl g init l) := by
  induction l generalizing init with
  | nil => rfl
  | cons a l ih => rw [List.foldlM_cons, List.foldl_cons]; exact ih (g init a)

theorem update_game_table_eq_pure (size : Nat × Nat) (gt : GameTable)
    (h1 : size.1 ≠ 0) (h2 : size.2 ≠ 0) :
    update_game_table size gt = some (update_pure size gt) := by
  have hc : ∀ x y : Nat,
      count_number_of_neighbour size gt x y = some (count_val size gt x y) := fun x y => by
    rw [count_number_of_neighbour, if_neg (by simp [h1, h2])]
  rw [update_game_table, update_pure]
  simp only [hc, Option.map_some', foldlM_option_eq_foldl, row_update]

theorem row_update_nil (size : Nat × Nat) (gt : GameTable) (x : Nat) (acc : GameTable) :
    row_update size gt x acc [] = acc := rfl

theorem row_update_cons (size : Nat × Nat) (gt : GameTable) (x : Nat) (acc : GameTable)
    (q : Nat × Bool) (l : List (Nat × Bool)) :
    row_update size gt x acc (q :: l) =
      row_update size gt x
        (set2 acc x q.1 (new_cell_state (count_val size gt (x % 65536) (q.1 % 65536)) q.2 (get2 acc x q.1)))
        l := rfl

theorem row_update_shaped (size : Nat × Nat) (gt : GameTable) (x : Nat)
    (l : List (Nat × Bool)) :
    ∀ acc : GameTable, Shaped size acc → Shaped size (row_update size gt x acc l) := by
  induction l with
  | nil => exact fun acc h => h
  | cons q l ih =>
    intro acc h
    rw [row_update_cons]
    exact ih _ (shaped_set2 _ _ _ _ _ h)

theorem row_update_get_ne (size : Nat × Nat) (gt : GameTable) (x : Nat)
    (l : List (Nat × Bool)) (r c : Nat) (hr : r ≠ x) :
    ∀ acc : GameTable, get2 (row_update size gt x acc l) r c = get2 acc r c := by
  induction l with
  | nil => exact fun acc => rfl
  | cons q l ih =>
    intro acc
    rw [row_update_cons, ih, get2_set2_ne _ _ (Or.inl (Ne.symm hr))]

theorem row_update_get (size : Nat × Nat) (gt : GameTable) (x : Nat)
    (row : List Bool) (c : Nat) (hx : x < size.1) :
    ∀ (k : Nat) (acc : GameTable), Shaped size acc → k + row.length ≤ size.2 →
      get2 (row_update size gt x acc (List.enumFrom k row)) x c =
        if k ≤ c ∧ c < k + row.length then
          new_cell_state (count_val size gt (x % 65536) (c % 65536)) (row.getD (c - k) false)
            (get2 acc x c)
        else get2 acc x c := by
  induction row with
  | nil =>
    intro k acc _ _
    rw [List.enumFrom_nil, row_update_nil, if_neg (by simp only [List.length_nil]; omega)]
  | cons b row ih =>
    intro k acc hacc hk
    rw [List.enumFrom_cons, row_update_cons,
      ih (k + 1) _ (shaped_set2 _ _ _ _ _ hacc) (by simp only [List.length_cons] at hk; omega)]
    rcases eq_or_ne c k with rfl | hck
    · rw [if_neg (by omega), if_pos (by simp only [List.length_cons]; omega), Nat.sub_self,
        List.getD_cons_zero,
        get2_set2_self _ _ _ _ (by rw [hacc.1]; exact hx)
          (by rw [hacc.2 x hx]; simp only [List.length_cons] at hk; omega)]
    · rw [get2_set2_ne _ _ (Or.inr (Ne.symm hck))]
      by_cases hcond : k + 1 ≤ c ∧ c < k + 1 + row.length
      · rw [if_pos hcond, if_pos (by simp only [List.length_cons]; omega)]
        have he : c - k = (c - (k + 1)) + 1 := by omega
        rw [he, List.getD_cons_succ]
      · rw [if_neg hcond, if_neg (by simp only [List.length_cons]; omega)]

theorem table_update_shaped (size : Nat × Nat) (gt : GameTable)
    (l : List (Nat × List Bool)) :
    ∀ acc : GameTable, Shaped size acc →
      Shaped size
        (List.foldl (fun new p => row_update size gt p.1 new p.2.enum) acc l) := by
  induction l with
  | nil => exact fun acc h => h
  | cons p l ih =>
    intro acc h
    rw [List.foldl_cons]
    exact ih _ (row_update_shaped _ _ _ _ _ h)

theorem table_update_get (size : Nat × Nat) (gt : GameTable)
    (rows : List (List Bool)) (r c : Nat) :
    ∀ (k : Nat) (acc : GameTable), Shaped size acc → k + rows.length ≤ size.1 →
      (∀ i, i < rows.length → (rows.getD i []).length = size.2) →
      get2 (List.foldl (fun new p => row_update size gt p.1 new p.2.enum) acc
          (List.enumFrom k rows)) r c =
        if k ≤ r ∧ r < k + rows.length ∧ c < size.2 then
          new_cell_state (count_val size gt (r % 65536) (c % 65536))
            ((rows.getD (r - k) []).getD c false) (get2 acc r c)
        else get2 acc r c := by
  induction rows with
  | nil =>
    intro k acc _ _ _
    rw [List.enumFrom_nil, List.foldl_nil, if_neg (by simp only [List.length_nil]; omega)]
  | cons row rows ih =>
    intro k acc hacc hk hw
    have hrow0 : row.length = size.2 := by
      have := hw 0 (by simp only [List.length_cons]; omega)
      simpa using this
    have hw' : ∀ i, i < rows.length → (rows.getD i []).length = size.2 := fun i hi => by
      have := hw (i + 1) (by simp only [List.length_cons]; omega)
      rwa [List.getD_cons_succ] at this
    rw [List.enumFrom_cons, List.foldl_cons]
    have hacc1 : Shaped size (row_update size gt k acc row.enum) :=
      row_update_shaped _ _ _ _ _ hacc
    rw [ih (k + 1) (row_update size gt k acc row.enum) hacc1
      (by simp only [List.length_cons] at hk; omega) hw']
    rcases eq_or_ne r k with rfl | hrk
    · rw [if_neg (by omega), List.enum_eq_enumFrom,
        row_update_get size gt r row c (by simp only [List.length_cons] at hk; omega) 0 acc hacc
          (by omega)]
      by_cases hc2 : c < size.2
      · rw [if_pos (by omega),
          if_pos ⟨Nat.le_refl r, by simp only [List.length_cons]; omega, hc2⟩, Nat.sub_self,
          List.getD_cons_zero, Nat.sub_zero]
      · rw [if_neg (by omega), if_neg (by simp [hc2])]
    · rw [row_update_get_ne size gt k row.enum r c hrk]
      by_cases hcond : k + 1 ≤ r ∧ r < k + 1 + rows.length ∧ c < size.2
      · rw [if_pos hcond, if_pos (by simp only [List.length_cons]; omega)]
        have he : r - k = (r - (k + 1)) + 1 := by omega
        rw [he, List.getD_cons_succ]
      · rw [if_neg hcond, if_neg (by simp only [List.length_cons]; omega)]

theorem update_pure_shaped (size : Nat × Nat) (gt : GameTable) :
    Shaped size (update_pure size gt) := by
  rw [update_pure]
  exact table_update_shaped size gt gt.enum _ (shaped_initialize_empty size)

theorem update_pure_get (size : Nat × Nat) (gt : GameTable)
    (hs : Shaped size gt) (r c : Nat) (hr : r < size.1) (hc : c < size.2) :
    get2 (update_pure size gt) r c =
      new_cell_state (count_val size gt (r % 65536) (c % 65536)) (get2 gt r c) false := by
  have hlen : gt.length = size.1 := hs.1
  rw [update_pure, List.enum_eq_enumFrom,
    table_update_get size gt gt r c 0 _ (shaped_initialize_empty size) (by omega)
      (fun i hi => hs.2 i (by omega)),
    if_pos ⟨Nat.zero_le r, by omega, hc⟩, Nat.sub_zero, get2_initialize_empty]
  rfl

/-! ## Degenerate grids -/

theorem update_fold_empty_rows (size : Nat × Nat) (gt : GameTable)
    (rows : List (List Bool)) :
    ∀ (k : Nat) (acc : GameTable), (∀ i, i < rows.length → rows.getD i [] = []) →
      List.foldlM
        (fun new p =>
          p.2.enum.foldlM
            (fun new2 q =>
              (count_number_of_neighbour size gt (p.1 % 65536) (q.1 % 65536)).map
                fun n => set2 new2 p.1 q.1 (new_cell_state n q.2 (get2 new2 p.1 q.1)))
            new)
        acc (List.enumFrom k rows) = some acc := by
  induction rows with
  | nil => exact fun k acc _ => rfl
  | cons row rows ih =>
    intro k acc hw
    have h0 : row = [] := by
      have := hw 0 (by simp only [List.length_cons]; omega)
      simpa using this
    subst h0
    rw [List.enumFrom_cons]
    exact ih (k + 1) acc fun i hi => by
      have := hw (i + 1) (by simp only [List.length_cons]; omega)
      rwa [List.getD_cons_succ] at this

theorem update_game_table_degenerate (size : Nat × Nat) (gt : GameTable)
    (hs : Shaped size gt) (h : size.1 = 0 ∨ size.2 = 0) :
    update_game_table size gt = some (initialize_empty_game_table size) := by
  rcases h with h | h
  · have hnil : gt = [] := List.length_eq_zero.mp (hs.1.trans h)
    subst hnil
    rfl
  · rw [update_game_table, List.enum_eq_enumFrom]
    exact update_fold_empty_rows size gt gt 0 _ fun i hi =>
      List.length_eq_zero.mp (by rw [hs.2 i (hs.1 ▸ hi), h])

/-! ## Claim C1: the Game-of-Life rule -/

theorem new_cell_state_from_false (n : Nat) (cell : Bool) :
    (new_cell_state n cell false = true ↔
      ((cell = true ∧ (n = 2 ∨ n = 3)) ∨ (cell = false ∧ n = 3))) := by
  cases cell <;> rcases n with _ | _ | _ | _ | n <;> simp [new_cell_state]

/-- C1: for every grid whose dimensions equal the stored grid size (a
`u16`-bounded terminal size) and every cell `(r, c)`, the cell is live
in the output of `update_game_table` exactly when it was live with a
toroidal neighbour count of 2 or 3, or dead with a count of exactly 3;
in every other combination it is dead. -/
theorem C1_update_rule (size : Nat × Nat) (gt : GameTable) (r c : Nat)
    (hlen : gt.length = size.1)
    (hrow : ∀ i, i < size.1 → (gt.getD i []).length = size.2)
    (hb1 : size.1 ≤ 65535) (hb2 : size.2 ≤ 65535)
    (hr : r < size.1) (hc : c < size.2) :
    ∃ (gt' : GameTable) (n : Nat),
      update_game_table size gt = some gt' ∧
      count_number_of_neighbour size gt r c = some n ∧
      (get2 gt' r c = true ↔
        ((get2 gt r c = true ∧ (n = 2 ∨ n = 3)) ∨ (get2 gt r c = false ∧ n = 3))) := by
  have h1 : size.1 ≠ 0 := by omega
  have h2 : size.2 ≠ 0 := by omega
  refine ⟨update_pure size gt, count_val size gt r c,
    update_game_table_eq_pure size gt h1 h2,
    by rw [count_number_of_neighbour, if_neg (by simp [h1, h2])], ?_⟩
  rw [update_pure_get size gt ⟨hlen, hrow⟩ r c hr hc,
    Nat.mod_eq_of_lt (by omega), Nat.mod_eq_of_lt (by omega)]
  exact new_cell_state_from_false _ _

/-- Witness for C1 on a 3×3 grid whose middle row is live: the dead cell
`(0, 1)` has exactly 3 live neighbours and is born. -/
theorem C1_update_rule_witness :
    ([[false, false, false], [true, true, true], [false, false, false]] : GameTable).length = 3 ∧
    (2 : Nat) < 3 ∧
    ∃ (gt' : GameTable) (n : Nat),
      update_game_table (3, 3) [[false, false, false], [true, true, true], [false, false, false]] =
        some gt' ∧
      count_number_of_neighbour (3, 3)
        [[false, false, false], [true, true, true], [false, false, false]] 0 1 = some n ∧
      (get2 gt' 0 1 = true ↔
        ((get2 [[false, false, false], [true, true, true], [false, false, false]] 0 1 = true ∧
            (n = 2 ∨ n = 3)) ∨
          (get2 [[false, false, false], [true, true, true], [false, false, false]] 0 1 = false ∧
            n = 3))) :=
  ⟨rfl, by decide,
    C1_update_rule (3, 3) [[false, false, false], [true, true, true], [false, false, false]] 0 1
      rfl (by decide) (by decide) (by decide) (by decide) (by decide)⟩

/-! ## Claim C3: dimensions are preserved -/

/-- C3: on every grid whose dimensions equal the stored grid size,
`update_game_table` succeeds and returns a grid with the same number of
rows as its input, each row having the same length as the corresponding
input row. -/
theorem C3_dims_preserved (size : Nat × Nat) (gt : GameTable)
    (hlen : gt.length = size.1)
    (hrow : ∀ i, i < size.1 → (gt.getD i []).length = size.2) :
    ∃ gt' : GameTable, update_game_table size gt = some gt' ∧
      gt'.length = gt.length ∧
      ∀ i, i < gt.length → (gt'.getD i []).length = (gt.getD i []).length := by
  by_cases h0 : size.1 = 0 ∨ size.2 = 0
  · refine ⟨_, update_game_table_degenerate size gt ⟨hlen, hrow⟩ h0, ?_, ?_⟩
    · rw [initialize_empty_game_table, List.length_replicate, hlen]
    · intro i hi
      rw [initialize_empty_game_table, getD_replicate, if_pos (hlen ▸ hi),
        List.length_replicate, hrow i (hlen ▸ hi)]
  · push_neg at h0
    refine ⟨_, update_game_table_eq_pure size gt h0.1 h0.2,
      (update_pure_shaped size gt).1.trans hlen.symm, fun i hi => ?_⟩
    exact ((update_pure_shaped size gt).2 i (hlen ▸ hi)).trans (hrow i (hlen ▸ hi)).symm

/-- Witness for C3 on a 2×2 grid. -/
theorem C3_dims_preserved_witness :
    ([[true, false], [false, true]] : GameTable).length = 2 ∧
    ∃ gt' : GameTable, update_game_table (2, 2) [[true, false], [false, true]] = some gt' ∧
      gt'.length = ([[true, false], [false, true]] : GameTable).length ∧
      ∀ i, i < ([[true, false], [false, true]] : GameTable).length →
        (gt'.getD i []).length = (([[true, false], [false, true]] : GameTable).getD i []).length :=
  ⟨rfl, C3_dims_preserved (2, 2) [[true, false], [false, true]] rfl (by decide)⟩

/-! ## Claim C4: degenerate zero-area grids -/

/-- C4: on a grid matching a stored size with zero height or zero width,
every call to `count_number_of_neighbour` would panic with a
modulo-by-zero (`none`), yet `update_game_table` never performs one: it
succeeds and returns the empty grid of the stored size. -/
theorem C4_degenerate_total (size : Nat × Nat) (gt : GameTable) (x y : Nat)
    (hlen : gt.length = size.1)
    (hrow : ∀ i, i < size.1 → (gt.getD i []).length = size.2)
    (h : size.1 = 0 ∨ size.2 = 0) :
    count_number_of_neighbour size gt x y = none ∧
    update_game_table size gt = some (List.replicate size.1 []) := by
  refine ⟨by rw [count_number_of_neighbour, if_pos h], ?_⟩
  rw [update_game_table_degenerate size gt ⟨hlen, hrow⟩ h, initialize_empty_game_table]
  rcases h with h | h
  · rw [h, List.replicate_zero, List.replicate_zero]
  · rw [h, List.replicate_zero]

/-- Witness for C4 on a 2×0 grid. -/
theorem C4_degenerate_total_witness :
    ([[], []] : GameTable).length = 2 ∧
    count_number_of_neighbour (2, 0) [[], []] 0 0 = none ∧
    update_game_table (2, 0) [[], []] = some (List.replicate 2 []) :=
  ⟨rfl, C4_degenerate_total (2, 0) [[], []] 0 0 rfl (by decide) (by decide)⟩

end GameOfLife
